import Mathlib

/-!
CHRP4 board support: register-level model of `CHRP4.c`.

The PIC16F1459 special-function registers touched by `CHRP4.c` are modelled as
a register file of natural numbers; every store truncates to 8 bits.  Each
C statement that writes a register appends one event to a write log, so that
the order of the writes can be stated.  The analog-to-digital converter is a
small simulated peripheral: once the GO bit goes from 0 to 1 the hardware
clears it again after `delay` polls of that bit and latches the conversion
result into ADRESH.
-/

namespace CHRP4

/-- Special-function registers named in `CHRP4.c`. -/
inductive Reg where
  | OSCCON | ACTCON | OSCSTAT | OPTION_REG
  | LATA | ANSELA | WPUA | TRISA
  | LATB | ANSELB | WPUB | TRISB
  | LATC | ANSELC | TRISC
  | ADCON0 | ADCON1 | ADCON2 | ADRESH
  deriving DecidableEq, Repr

/-- One register access made by the program, in program order. -/
inductive Event where
  /-- Whole-register assignment `R = v;`. -/
  | write (r : Reg) (v : Nat)
  /-- Single-bit assignment `Rbits.b = x;`. -/
  | bit (r : Reg) (i : Nat) (b : Bool)
  /-- Test of one bit in a loop condition, with the value observed. -/
  | poll (r : Reg) (i : Nat) (b : Bool)
  deriving DecidableEq, Repr

/-- Modelled from the spec: bit position of ADON (converter power) in ADCON0;
the device header that declares it is not part of the sources. -/
def ADON : Nat := 0

/-- Modelled from the spec: bit position of GO/DONE (start / busy flag) in
ADCON0; the device header that declares it is not part of the sources. -/
def GO : Nat := 1

/-- Modelled from the spec: bit position of TRISC2 in TRISC (port C bit 2). -/
def TRISC2 : Nat := 2

/-- Modelled from the spec: bit position of TRISC3 in TRISC (port C bit 3). -/
def TRISC3 : Nat := 3

/-- Machine state: the register file, the simulated converter and the log of
register accesses made so far. -/
structure Sim where
  /-- Register contents. -/
  regs : Reg → Nat
  /-- Polls of GO that still observe 1 before the running conversion ends. -/
  timer : Nat
  /-- Number of polls the hardware takes to finish a conversion. -/
  delay : Nat
  /-- Conversion result (upper 8 bits) the hardware delivers on completion. -/
  sample : Nat
  /-- Accesses in program order, oldest first. -/
  log : List Event

/-- Store to an 8-bit register: the value is truncated to 8 bits.  The
simulated converter reacts to a store that raises GO from 0 to 1 by starting a
conversion: it will clear GO after `delay` polls. -/
def store (r : Reg) (v : Nat) (s : Sim) : Sim :=
  { s with
    regs := Function.update s.regs r (v % 256)
    timer :=
      if r = Reg.ADCON0 ∧ (v % 256).testBit GO = true ∧ (s.regs Reg.ADCON0).testBit GO = false
      then s.delay else s.timer }

/-- Append an event to the access log. -/
def emit (e : Event) (s : Sim) : Sim :=
  { s with log := s.log ++ [e] }

/-- Statement `R = v;`. -/
def write (r : Reg) (v : Nat) (s : Sim) : Sim :=
  emit (Event.write r (v % 256)) (store r v s)

/-- Statement `b = 1;` for bit `i` of register `r` (read-modify-write). -/
def setBit (r : Reg) (i : Nat) (s : Sim) : Sim :=
  emit (Event.bit r i true) (store r (s.regs r ||| (1 <<< i)) s)

/-- Statement `b = 0;` for bit `i` of register `r` (read-modify-write). -/
def clrBit (r : Reg) (i : Nat) (s : Sim) : Sim :=
  emit (Event.bit r i false) (store r (s.regs r &&& (0xFF ^^^ (1 <<< i))) s)

/-- Modelled from the spec: the simulated register model in which the hardware
clears GO a fixed number of polls after it was set; the converter itself is
hardware and not part of the sources.  One step is taken each time GO is
polled: while GO is set the countdown runs, and when it has run out the
hardware clears GO and latches the result into ADRESH. -/
def hwTick (s : Sim) : Sim :=
  if (s.regs Reg.ADCON0).testBit GO = true then
    match s.timer with
    | 0 =>
      { s with
        regs := Function.update
          (Function.update s.regs Reg.ADCON0 (s.regs Reg.ADCON0 &&& (0xFF ^^^ (1 <<< GO))))
          Reg.ADRESH (s.sample % 256) }
    | t + 1 => { s with timer := t }
  else s

/-- One evaluation of the loop condition `GO`: the hardware advances, then the
bit is read and the observation is logged. -/
def pollGO (s : Sim) : Bool × Sim :=
  let s1 := hwTick s
  let go := (s1.regs Reg.ADCON0).testBit GO
  (go, emit (Event.poll Reg.ADCON0 GO go) s1)

/-- Loop `while(GO);`.  The loop has no timeout in the source; `fuel` bounds
the number of polls and `none` means the bound was reached. -/
def waitGO : Nat → Sim → Option Sim
  | 0, _ => none
  | fuel + 1, s =>
    match pollGO s with
    | (true, s1) => waitGO fuel s1
    | (false, s1) => some s1

/-- Modelled from the spec: the compiler's settle delay `__delay_us(n)`, a busy
wait that touches no register and does not poll the converter. -/
def delay_us (_n : Nat) (s : Sim) : Sim := s

/-- Function `CHRP4_config` of `CHRP4.c`. -/
def CHRP4_config (s : Sim) : Sim :=
  s
  |> write Reg.OPTION_REG 0b01010111
  |> write Reg.LATA 0b00000000
  |> write Reg.ANSELA 0b00000000
  |> write Reg.WPUA 0b00001000
  |> write Reg.TRISA 0b00001111
  |> write Reg.LATB 0b00000000
  |> write Reg.ANSELB 0b00000000
  |> write Reg.WPUB 0b11110000
  |> write Reg.TRISB 0b11110000
  |> write Reg.LATC 0b00000000
  |> write Reg.ANSELC 0b00000000
  |> write Reg.TRISC 0b00001100

/-- Function `ADC_config` of `CHRP4.c`. -/
def ADC_config (s : Sim) : Sim :=
  s
  |> write Reg.LATC 0b00000000
  |> setBit Reg.TRISC TRISC2
  |> setBit Reg.TRISC TRISC3
  |> write Reg.ANSELC 0b00001100
  |> write Reg.ADCON0 0b00011100
  |> write Reg.ADCON1 0b01100000
  |> write Reg.ADCON2 0b00000000

/-- Function `ADC_select_channel` of `CHRP4.c`. -/
def ADC_select_channel (channel : Nat) (s : Sim) : Sim :=
  let s1 := setBit Reg.ADCON0 ADON s
  let s2 := write Reg.ADCON0 (s1.regs Reg.ADCON0 &&& 0b10000011) s1
  write Reg.ADCON0 (s2.regs Reg.ADCON0 ||| channel) s2

/-- Function `ADC_read` of `CHRP4.c`; the result is the returned byte and the
state at return. -/
def ADC_read (fuel : Nat) (s : Sim) : Option (Nat × Sim) :=
  let s1 := setBit Reg.ADCON0 GO s
  match waitGO fuel s1 with
  | none => none
  | some s2 => some (s2.regs Reg.ADRESH, s2)

/-- Function `ADC_read_channel` of `CHRP4.c`. -/
def ADC_read_channel (fuel : Nat) (channel : Nat) (s : Sim) : Option (Nat × Sim) :=
  let s1 := setBit Reg.ADCON0 ADON s
  let s2 := write Reg.ADCON0 (s1.regs Reg.ADCON0 &&& 0b10000011) s1
  let s3 := write Reg.ADCON0 (s2.regs Reg.ADCON0 ||| channel) s2
  let s4 := delay_us 5 s3
  let s5 := setBit Reg.ADCON0 GO s4
  match waitGO fuel s5 with
  | none => none
  | some s6 =>
    let s7 := clrBit Reg.ADCON0 ADON s6
    some (s7.regs Reg.ADRESH, s7)

/-- The two-step sequence the specification describes:
`ADC_select_channel(channel); r = ADC_read(); ADON = 0; return r`. -/
def ADC_read_channel_spec (fuel : Nat) (channel : Nat) (s : Sim) : Option (Nat × Sim) :=
  match ADC_read fuel (ADC_select_channel channel s) with
  | none => none
  | some (r, s1) => some (r, clrBit Reg.ADCON0 ADON s1)

/-- A power-on-like state used for concrete evaluations: all registers zero,
converter idle, conversions take three polls and deliver 0xAB. -/
def Sim.idle : Sim :=
  { regs := fun _ => 0, timer := 0, delay := 3, sample := 0xAB, log := [] }

/-- Events a run appended to the log: the log at the end without the part that
was already there at the start. -/
def emitted (s s1 : Sim) : List Event :=
  s1.log.drop s.log.length

/-- The three 8-bit port groups of the board. -/
inductive Port where
  | A | B | C
  deriving DecidableEq, Repr

/-- Output-latch register of a port. -/
def LAT : Port → Reg
  | Port.A => Reg.LATA
  | Port.B => Reg.LATB
  | Port.C => Reg.LATC

/-- Direction register of a port. -/
def TRIS : Port → Reg
  | Port.A => Reg.TRISA
  | Port.B => Reg.TRISB
  | Port.C => Reg.TRISC

/-- Whether an event writes register `r`, as a whole or one bit of it. -/
def Event.writesTo (r : Reg) : Event → Bool
  | Event.write r1 _ => decide (r1 = r)
  | Event.bit r1 _ _ => decide (r1 = r)
  | Event.poll _ _ _ => false

/-- Ordering property of a write sequence: every write to a port's direction
register has, strictly earlier in the same sequence, the write that clears
that port's output latch to 0. -/
def LatchClearedFirst (evs : List Event) : Prop :=
  ∀ (p : Port) (j : Fin evs.length), (evs.get j).writesTo (TRIS p) = true →
    ∃ i : Fin evs.length, i < j ∧ evs.get i = Event.write (LAT p) 0

/-! Bit-level facts about 8-bit stores -/

theorem testBit_mod256 (x i : Nat) :
    (x % 256).testBit i = (decide (i < 8) && x.testBit i) := by
  have h : (256 : Nat) = 2 ^ 8 := by norm_num
  rw [h, Nat.testBit_mod_two_pow]

theorem testBit_255 (i : Nat) : Nat.testBit 255 i = decide (i < 8) := by
  have h : (255 : Nat) = 2 ^ 8 - 1 := by norm_num
  rw [h, Nat.testBit_two_pow_sub_one]

theorem testBit_or_bit (a i j : Nat) (hj : j < 8) :
    ((a ||| (1 <<< i)) % 256).testBit j = (a.testBit j || decide (i = j)) := by
  rw [testBit_mod256, Nat.testBit_or, Nat.one_shiftLeft, Nat.testBit_two_pow]
  simp [hj]

theorem testBit_and_not_bit (a i j : Nat) (hj : j < 8) :
    ((a &&& (0xFF ^^^ (1 <<< i))) % 256).testBit j = (a.testBit j && !decide (i = j)) := by
  rw [testBit_mod256, Nat.testBit_and, Nat.testBit_xor, Nat.one_shiftLeft, Nat.testBit_two_pow,
    testBit_255]
  simp [hj]

theorem testBit_clear_GO (a : Nat) : (a &&& (0xFF ^^^ (1 <<< GO))).testBit GO = false := by
  rw [Nat.testBit_and, Nat.testBit_xor, Nat.one_shiftLeft, Nat.testBit_two_pow, testBit_255]
  simp [GO]

set_option maxRecDepth 100000 in
theorem chs_field_of_no_stray_bits :
    ∀ c < 256, c &&& 0b10000011 = 0 → c &&& 0b01111100 = c := by
  decide

/-! The busy-wait loop -/

/-- With GO set on entry and more fuel than the countdown, `while(GO);` ends:
it sees GO set `timer` times, then sees it clear, and by then the hardware has
cleared GO and latched the sample. -/
theorem waitGO_busy (regs : Reg → Nat) (delay sample : Nat)
    (hgo : (regs Reg.ADCON0).testBit GO = true) :
    ∀ (timer fuel : Nat) (log : List Event), timer < fuel →
      waitGO fuel ⟨regs, timer, delay, sample, log⟩ =
        some ⟨Function.update
                (Function.update regs Reg.ADCON0 (regs Reg.ADCON0 &&& (0xFF ^^^ (1 <<< GO))))
                Reg.ADRESH (sample % 256),
              0, delay, sample,
              log ++ (List.replicate timer (Event.poll Reg.ADCON0 GO true)
                ++ [Event.poll Reg.ADCON0 GO false])⟩ := by
  intro timer
  induction timer with
  | zero =>
    intro fuel log hf
    obtain ⟨f, rfl⟩ : ∃ f, fuel = f + 1 := ⟨fuel - 1, by omega⟩
    have hclr : (Function.update
        (Function.update regs Reg.ADCON0 (regs Reg.ADCON0 &&& (0xFF ^^^ (1 <<< GO))))
        Reg.ADRESH (sample % 256) Reg.ADCON0).testBit GO = false := by
      rw [Function.update_noteq (by decide), Function.update_same]
      exact testBit_clear_GO _
    simp only [waitGO, pollGO, hwTick, hgo, if_true, emit, hclr, List.replicate_zero,
      List.nil_append]
  | succ t ih =>
    intro fuel log hf
    obtain ⟨f, rfl⟩ : ∃ f, fuel = f + 1 := ⟨fuel - 1, by omega⟩
    have hlt : t < f := by omega
    simp [waitGO, pollGO, hwTick, hgo, emit, ih f _ hlt, List.replicate_succ]

/-- The loop lemma for a state given as a whole. -/
theorem waitGO_of_busy (s : Sim) (fuel : Nat)
    (hgo : (s.regs Reg.ADCON0).testBit GO = true) (hf : s.timer < fuel) :
    waitGO fuel s =
      some ⟨Function.update
              (Function.update s.regs Reg.ADCON0 (s.regs Reg.ADCON0 &&& (0xFF ^^^ (1 <<< GO))))
              Reg.ADRESH (s.sample % 256),
            0, s.delay, s.sample,
            s.log ++ (List.replicate s.timer (Event.poll Reg.ADCON0 GO true)
              ++ [Event.poll Reg.ADCON0 GO false])⟩ :=
  waitGO_busy s.regs s.delay s.sample hgo s.timer fuel s.log hf

/-! Stores and the converter countdown -/

theorem store_timer_lt (r : Reg) (v : Nat) (s : Sim) (fuel : Nat)
    (ht : s.timer < fuel) (hd : s.delay < fuel) : (store r v s).timer < fuel := by
  unfold store
  dsimp only
  split <;> assumption

theorem write_timer_lt (r : Reg) (v : Nat) (s : Sim) (fuel : Nat)
    (ht : s.timer < fuel) (hd : s.delay < fuel) : (write r v s).timer < fuel :=
  store_timer_lt r v s fuel ht hd

theorem setBit_timer_lt (r : Reg) (i : Nat) (s : Sim) (fuel : Nat)
    (ht : s.timer < fuel) (hd : s.delay < fuel) : (setBit r i s).timer < fuel :=
  store_timer_lt r _ s fuel ht hd

theorem setBit_GO_regs (s : Sim) :
    ((setBit Reg.ADCON0 GO s).regs Reg.ADCON0).testBit GO = true := by
  show (Function.update s.regs Reg.ADCON0 ((s.regs Reg.ADCON0 ||| (1 <<< GO)) % 256)
    Reg.ADCON0).testBit GO = true
  rw [Function.update_same, testBit_or_bit _ _ _ (by decide)]
  simp

theorem setBit_GO_timer (s : Sim) :
    (setBit Reg.ADCON0 GO s).timer =
      if (s.regs Reg.ADCON0).testBit GO = false then s.delay else s.timer := by
  show (if Reg.ADCON0 = Reg.ADCON0 ∧
      ((s.regs Reg.ADCON0 ||| (1 <<< GO)) % 256).testBit GO = true ∧
      (s.regs Reg.ADCON0).testBit GO = false then s.delay else s.timer) = _
  rw [testBit_or_bit _ _ _ (by decide)]
  simp

/-- What `ADC_read` returns and the state it leaves, given enough fuel. -/
theorem ADC_read_returns (s : Sim) (fuel : Nat) (ht : s.timer < fuel) (hd : s.delay < fuel) :
    ∃ s1 : Sim, ADC_read fuel s = some (s.sample % 256, s1) ∧
      s1.regs = Function.update
        (Function.update (setBit Reg.ADCON0 GO s).regs Reg.ADCON0
          ((setBit Reg.ADCON0 GO s).regs Reg.ADCON0 &&& (0xFF ^^^ (1 <<< GO))))
        Reg.ADRESH (s.sample % 256) ∧
      s1.log = s.log ++ Event.bit Reg.ADCON0 GO true ::
        (List.replicate (setBit Reg.ADCON0 GO s).timer (Event.poll Reg.ADCON0 GO true)
          ++ [Event.poll Reg.ADCON0 GO false]) := by
  have hw := waitGO_of_busy (setBit Reg.ADCON0 GO s) fuel (setBit_GO_regs s)
    (setBit_timer_lt _ _ s fuel ht hd)
  refine ⟨⟨Function.update
      (Function.update (setBit Reg.ADCON0 GO s).regs Reg.ADCON0
        ((setBit Reg.ADCON0 GO s).regs Reg.ADCON0 &&& (0xFF ^^^ (1 <<< GO))))
      Reg.ADRESH (s.sample % 256), 0, s.delay, s.sample,
      (setBit Reg.ADCON0 GO s).log ++
        (List.replicate (setBit Reg.ADCON0 GO s).timer (Event.poll Reg.ADCON0 GO true)
          ++ [Event.poll Reg.ADCON0 GO false])⟩, ?_, rfl, ?_⟩
  · unfold ADC_read
    simp only [hw]
    simp only [Function.update_same]
    rfl
  · simp [setBit, emit, store]

theorem select_timer_lt (channel : Nat) (s : Sim) (fuel : Nat)
    (ht : s.timer < fuel) (hd : s.delay < fuel) :
    (ADC_select_channel channel s).timer < fuel := by
  unfold ADC_select_channel
  exact write_timer_lt _ _ _ fuel
    (write_timer_lt _ _ _ fuel (setBit_timer_lt _ _ s fuel ht hd) hd) hd

theorem select_delay (channel : Nat) (s : Sim) :
    (ADC_select_channel channel s).delay = s.delay := rfl

theorem clrBit_ADON_regs (s : Sim) :
    ((clrBit Reg.ADCON0 ADON s).regs Reg.ADCON0).testBit ADON = false := by
  show (Function.update s.regs Reg.ADCON0
    ((s.regs Reg.ADCON0 &&& (0xFF ^^^ (1 <<< ADON))) % 256) Reg.ADCON0).testBit ADON = false
  rw [Function.update_same, testBit_and_not_bit _ _ _ (by decide)]
  simp

theorem clrBit_ADON_ADRESH (s : Sim) :
    (clrBit Reg.ADCON0 ADON s).regs Reg.ADRESH = s.regs Reg.ADRESH := by
  show Function.update s.regs Reg.ADCON0
    ((s.regs Reg.ADCON0 &&& (0xFF ^^^ (1 <<< ADON))) % 256) Reg.ADRESH = s.regs Reg.ADRESH
  rw [Function.update_noteq (by decide)]

/-- The one-call routine and the two-step sequence agree for every poll bound,
also when the bound is too small for either to finish. -/
theorem read_channel_eq_spec (fuel channel : Nat) (s : Sim) :
    ADC_read_channel fuel channel s = ADC_read_channel_spec fuel channel s := by
  unfold ADC_read_channel ADC_read_channel_spec ADC_read ADC_select_channel delay_us
  dsimp only
  cases waitGO fuel _ with
  | none => rfl
  | some s6 => simp only [clrBit_ADON_ADRESH]

/-- The two-step sequence finishes when the poll bound exceeds the countdown
and the conversion time. -/
theorem read_channel_spec_returns (fuel channel : Nat) (s : Sim)
    (ht : s.timer < fuel) (hd : s.delay < fuel) :
    ∃ s1, ADC_read fuel (ADC_select_channel channel s) = some (s.sample % 256, s1) ∧
      ADC_read_channel_spec fuel channel s =
        some (s.sample % 256, clrBit Reg.ADCON0 ADON s1) := by
  obtain ⟨s1, h, _⟩ := ADC_read_returns (ADC_select_channel channel s) fuel
    (select_timer_lt channel s fuel ht hd) hd
  refine ⟨s1, h, ?_⟩
  unfold ADC_read_channel_spec
  rw [h]
  rfl

/-! The control register after channel selection -/

/-- The value `ADC_select_channel` leaves in ADCON0, as a function of the old
value and the argument. -/
theorem select_ADCON0 (channel : Nat) (s : Sim) :
    (ADC_select_channel channel s).regs Reg.ADCON0 =
      ((((s.regs Reg.ADCON0 ||| (1 <<< ADON)) % 256) &&& 0b10000011) % 256 ||| channel) % 256 := by
  simp [ADC_select_channel, write, setBit, emit, store]

theorem select_testBit (a channel j : Nat) (hj : j < 8) :
    (((((a ||| (1 <<< ADON)) % 256) &&& 0b10000011) % 256 ||| channel) % 256).testBit j =
      (((a.testBit j || decide (ADON = j)) && Nat.testBit 0b10000011 j) || channel.testBit j) := by
  rw [testBit_mod256, Nat.testBit_or, testBit_mod256, Nat.testBit_and,
    testBit_or_bit _ _ _ hj]
  simp [hj]

theorem select_field (a channel : Nat) (h8 : channel < 256)
    (hch : channel &&& 0b10000011 = 0) :
    ((((a ||| (1 <<< ADON)) % 256) &&& 0b10000011) % 256 ||| channel) % 256 &&& 0b01111100
      = channel := by
  have hx : ((a ||| (1 <<< ADON)) % 256) &&& 0b10000011 < 256 :=
    lt_of_le_of_lt Nat.and_le_right (by norm_num)
  rw [Nat.mod_eq_of_lt hx]
  have hor : (((a ||| (1 <<< ADON)) % 256) &&& 0b10000011) ||| channel < 2 ^ 8 :=
    Nat.or_lt_two_pow (by simpa using hx) (by simpa using h8)
  rw [Nat.mod_eq_of_lt (by simpa using hor), Nat.and_comm, Nat.and_or_distrib_left,
    Nat.and_comm 0b01111100 (_ &&& 0b10000011), Nat.and_assoc]
  have hz : (0b10000011 : Nat) &&& 0b01111100 = 0 := by decide
  rw [hz, Nat.and_zero, Nat.zero_or, Nat.and_comm]
  exact chs_field_of_no_stray_bits channel h8 hch

/-- A store whose GO bit equals the GO bit already in ADCON0 does not start a
conversion. -/
theorem store_timer_same (r : Reg) (v : Nat) (s : Sim)
    (h : (v % 256).testBit GO = (s.regs Reg.ADCON0).testBit GO) :
    (store r v s).timer = s.timer := by
  unfold store
  dsimp only
  rw [h]
  split
  · rename_i hc
    obtain ⟨_, h1, h2⟩ := hc
    rw [h1] at h2
    exact absurd h2 (by decide)
  · rfl

theorem select_timer (channel : Nat) (s : Sim) (hch : channel.testBit GO = false) :
    (ADC_select_channel channel s).timer = s.timer := by
  have h1 : (setBit Reg.ADCON0 ADON s).timer = s.timer := by
    apply store_timer_same
    rw [testBit_or_bit _ _ _ (by decide)]
    simp [ADON, GO]
  have h2 : (write Reg.ADCON0 ((setBit Reg.ADCON0 ADON s).regs Reg.ADCON0 &&& 0b10000011)
      (setBit Reg.ADCON0 ADON s)).timer = s.timer := by
    rw [← h1]
    apply store_timer_same
    rw [testBit_mod256, Nat.testBit_and]
    have h : Nat.testBit 0b10000011 GO = true := by decide
    rw [h]
    simp [GO]
  unfold ADC_select_channel
  dsimp only
  rw [← h2]
  apply store_timer_same
  rw [testBit_mod256, Nat.testBit_or, hch]
  simp [GO]

/-! Write sequences of the two configuration routines -/

theorem emitted_of_log (s s1 : Sim) (evs : List Event) (h : s1.log = s.log ++ evs) :
    emitted s s1 = evs := by
  unfold emitted
  rw [h, List.drop_left]

theorem CHRP4_config_emitted (s : Sim) :
    emitted s (CHRP4_config s) =
      [Event.write Reg.OPTION_REG 0b01010111,
       Event.write Reg.LATA 0, Event.write Reg.ANSELA 0,
       Event.write Reg.WPUA 0b00001000, Event.write Reg.TRISA 0b00001111,
       Event.write Reg.LATB 0, Event.write Reg.ANSELB 0,
       Event.write Reg.WPUB 0b11110000, Event.write Reg.TRISB 0b11110000,
       Event.write Reg.LATC 0, Event.write Reg.ANSELC 0,
       Event.write Reg.TRISC 0b00001100] := by
  apply emitted_of_log
  simp [CHRP4_config, write, emit, store]

theorem ADC_config_emitted (s : Sim) :
    emitted s (ADC_config s) =
      [Event.write Reg.LATC 0,
       Event.bit Reg.TRISC TRISC2 true, Event.bit Reg.TRISC TRISC3 true,
       Event.write Reg.ANSELC 0b00001100, Event.write Reg.ADCON0 0b00011100,
       Event.write Reg.ADCON1 0b01100000, Event.write Reg.ADCON2 0] := by
  apply emitted_of_log
  simp [ADC_config, write, setBit, emit, store]

/-! Properties of the routines -/

/-- C1: for every prior state and every 8-bit channel value with no bit set
outside the CHS field, the CHS field of ADCON0 after `ADC_select_channel`
equals the channel value, whatever the field held before. -/
theorem select_channel_sets_CHS_field (s : Sim) (channel : Nat) (h8 : channel < 256)
    (hch : channel &&& 0b10000011 = 0) :
    (ADC_select_channel channel s).regs Reg.ADCON0 &&& 0b01111100 = channel := by
  rw [select_ADCON0]
  exact select_field _ channel h8 hch

theorem select_channel_sets_CHS_field_witness :
    (0b00010100 : Nat) < 256 ∧ (0b00010100 : Nat) &&& 0b10000011 = 0 ∧
      (ADC_select_channel 0b00010100 (ADC_config Sim.idle)).regs Reg.ADCON0 &&& 0b01111100
        = 0b00010100 :=
  ⟨by decide, by decide,
    select_channel_sets_CHS_field (ADC_config Sim.idle) 0b00010100 (by decide) (by decide)⟩

/-- C2: in the simulated hardware, with a poll bound above the countdown and the
conversion time, `ADC_read` returns; the accesses it made are one setting of
GO, then `k` polls that saw GO set, then one poll that saw GO clear, where `k`
is the conversion time if GO was clear on entry; GO is 0 in the state at
return and the returned value is the content of ADRESH in that state, which is
the freshly latched sample. -/
theorem ADC_read_one_start_then_done (s : Sim) (fuel : Nat)
    (ht : s.timer < fuel) (hd : s.delay < fuel) :
    ∃ (k : Nat) (s1 : Sim),
      ADC_read fuel s = some (s1.regs Reg.ADRESH, s1) ∧
      emitted s s1 = Event.bit Reg.ADCON0 GO true ::
        (List.replicate k (Event.poll Reg.ADCON0 GO true)
          ++ [Event.poll Reg.ADCON0 GO false]) ∧
      ((s.regs Reg.ADCON0).testBit GO = false → k = s.delay) ∧
      ((s.regs Reg.ADCON0).testBit GO = true → k = s.timer) ∧
      (s1.regs Reg.ADCON0).testBit GO = false ∧
      s1.regs Reg.ADRESH = s.sample % 256 := by
  obtain ⟨s1, hret, hregs, hlog⟩ := ADC_read_returns s fuel ht hd
  have hres : s1.regs Reg.ADRESH = s.sample % 256 := by
    rw [hregs, Function.update_same]
  refine ⟨(setBit Reg.ADCON0 GO s).timer, s1, ?_, ?_, ?_, ?_, ?_, hres⟩
  · rw [hret, hres]
  · exact emitted_of_log s s1 _ hlog
  · intro h
    rw [setBit_GO_timer, if_pos h]
  · intro h
    rw [setBit_GO_timer, if_neg (by simp [h])]
  · rw [hregs, Function.update_noteq (by decide), Function.update_same]
    exact testBit_clear_GO _

theorem ADC_read_one_start_then_done_witness :
    Sim.idle.timer < 4 ∧ Sim.idle.delay < 4 ∧
      ∃ (k : Nat) (s1 : Sim),
        ADC_read 4 Sim.idle = some (s1.regs Reg.ADRESH, s1) ∧
        emitted Sim.idle s1 = Event.bit Reg.ADCON0 GO true ::
          (List.replicate k (Event.poll Reg.ADCON0 GO true)
            ++ [Event.poll Reg.ADCON0 GO false]) ∧
        ((Sim.idle.regs Reg.ADCON0).testBit GO = false → k = Sim.idle.delay) ∧
        ((Sim.idle.regs Reg.ADCON0).testBit GO = true → k = Sim.idle.timer) ∧
        (s1.regs Reg.ADCON0).testBit GO = false ∧
        s1.regs Reg.ADRESH = Sim.idle.sample % 256 :=
  ⟨by decide, by decide, ADC_read_one_start_then_done Sim.idle 4 (by decide) (by decide)⟩

/-- C3: for every channel value (valid or not), every prior state and every
conversion time, with a poll bound above the countdown and the conversion time
`ADC_read_channel` returns and ADON (bit 0 of ADCON0) is 0 in the state it
leaves. -/
theorem ADC_read_channel_leaves_ADC_off (s : Sim) (fuel channel : Nat)
    (ht : s.timer < fuel) (hd : s.delay < fuel) :
    ∃ (r : Nat) (s1 : Sim),
      ADC_read_channel fuel channel s = some (r, s1) ∧
      (s1.regs Reg.ADCON0).testBit ADON = false := by
  obtain ⟨s1, _, h⟩ := read_channel_spec_returns fuel channel s ht hd
  refine ⟨s.sample % 256, clrBit Reg.ADCON0 ADON s1, ?_, clrBit_ADON_regs s1⟩
  rw [read_channel_eq_spec, h]

theorem ADC_read_channel_leaves_ADC_off_witness :
    Sim.idle.timer < 4 ∧ Sim.idle.delay < 4 ∧
      ∃ (r : Nat) (s1 : Sim),
        ADC_read_channel 4 0b00011100 Sim.idle = some (r, s1) ∧
        (s1.regs Reg.ADCON0).testBit ADON = false :=
  ⟨by decide, by decide,
    ADC_read_channel_leaves_ADC_off Sim.idle 4 0b00011100 (by decide) (by decide)⟩

/-- C4: for every channel and prior state, `ADC_read_channel` and the sequence
`ADC_select_channel; r = ADC_read; ADON = 0; return r` give the same result
for every poll bound, and with a poll bound above the countdown and the
conversion time both return, with the same byte and the same final state. -/
theorem ADC_read_channel_is_select_then_read (s : Sim) (fuel channel : Nat)
    (ht : s.timer < fuel) (hd : s.delay < fuel) :
    (∀ n, ADC_read_channel n channel s = ADC_read_channel_spec n channel s) ∧
    ∃ (r : Nat) (s1 : Sim),
      ADC_read_channel fuel channel s = some (r, s1) ∧
      ADC_read_channel_spec fuel channel s = some (r, s1) := by
  refine ⟨fun n => read_channel_eq_spec n channel s, ?_⟩
  obtain ⟨s1, _, h⟩ := read_channel_spec_returns fuel channel s ht hd
  exact ⟨_, _, by rw [read_channel_eq_spec, h], h⟩

theorem ADC_read_channel_is_select_then_read_witness :
    Sim.idle.timer < 4 ∧ Sim.idle.delay < 4 ∧
      ((∀ n, ADC_read_channel n 0b00010100 Sim.idle
          = ADC_read_channel_spec n 0b00010100 Sim.idle) ∧
      ∃ (r : Nat) (s1 : Sim),
        ADC_read_channel 4 0b00010100 Sim.idle = some (r, s1) ∧
        ADC_read_channel_spec 4 0b00010100 Sim.idle = some (r, s1)) :=
  ⟨by decide, by decide,
    ADC_read_channel_is_select_then_read Sim.idle 4 0b00010100 (by decide) (by decide)⟩

/-- C5: for every prior state and every channel argument, ADON (bit 0 of
ADCON0) is 1 after `ADC_select_channel`: the mask-and-set that follows the
power-on write keeps it. -/
theorem select_channel_powers_on (s : Sim) (channel : Nat) :
    ((ADC_select_channel channel s).regs Reg.ADCON0).testBit ADON = true := by
  rw [select_ADCON0, select_testBit _ _ _ (by decide)]
  have h : Nat.testBit 0b10000011 ADON = true := by decide
  simp [h]

/-- C6, as stated, fails: from the idle state with GO clear, the 8-bit argument
0b00000010 makes `ADC_select_channel` raise GO. -/
theorem select_channel_can_raise_GO :
    (0b00000010 : Nat) < 256 ∧ (Sim.idle.regs Reg.ADCON0).testBit GO = false ∧
      ((ADC_select_channel 0b00000010 Sim.idle).regs Reg.ADCON0).testBit GO = true := by
  decide

/-- C6, amended: for every prior state and every channel argument whose bit 1
is clear, GO (bit 1 of ADCON0) after `ADC_select_channel` equals its value
before the call, and the simulated converter's countdown is untouched: no
conversion is started. -/
theorem select_channel_keeps_GO (s : Sim) (channel : Nat)
    (hch : channel.testBit GO = false) :
    ((ADC_select_channel channel s).regs Reg.ADCON0).testBit GO
      = (s.regs Reg.ADCON0).testBit GO ∧
    (ADC_select_channel channel s).timer = s.timer := by
  refine ⟨?_, select_timer channel s hch⟩
  rw [select_ADCON0, select_testBit _ _ _ (by decide), hch]
  have h : Nat.testBit 0b10000011 GO = true := by decide
  have hne : decide (ADON = GO) = false := by decide
  simp [h, hne]

theorem select_channel_keeps_GO_witness :
    Nat.testBit 0b00011100 GO = false ∧
      (((ADC_select_channel 0b00011100 Sim.idle).regs Reg.ADCON0).testBit GO
        = (Sim.idle.regs Reg.ADCON0).testBit GO ∧
      (ADC_select_channel 0b00011100 Sim.idle).timer = Sim.idle.timer) :=
  ⟨by decide, select_channel_keeps_GO Sim.idle 0b00011100 (by decide)⟩

/-- C7: for every prior state, after `ADC_config` ADON (bit 0 of ADCON0) is 0,
and bits 2 and 3 are 1 both in TRISC and in ANSELC. -/
theorem ADC_config_off_and_analog_inputs (s : Sim) :
    ((ADC_config s).regs Reg.ADCON0).testBit ADON = false ∧
    ((ADC_config s).regs Reg.TRISC).testBit 2 = true ∧
    ((ADC_config s).regs Reg.TRISC).testBit 3 = true ∧
    ((ADC_config s).regs Reg.ANSELC).testBit 2 = true ∧
    ((ADC_config s).regs Reg.ANSELC).testBit 3 = true := by
  have hT : (ADC_config s).regs Reg.TRISC =
      ((s.regs Reg.TRISC ||| (1 <<< TRISC2)) % 256 ||| (1 <<< TRISC3)) % 256 := by
    simp [ADC_config, write, setBit, emit, store]
  have hA : (ADC_config s).regs Reg.ADCON0 = 0b00011100 := by
    simp [ADC_config, write, setBit, emit, store]
  have hS : (ADC_config s).regs Reg.ANSELC = 0b00001100 := by
    simp [ADC_config, write, setBit, emit, store]
  rw [hT, hA, hS, testBit_or_bit _ _ 2 (by decide), testBit_or_bit _ _ 2 (by decide),
    testBit_or_bit _ _ 3 (by decide)]
  refine ⟨by decide, ?_, ?_, by decide, by decide⟩
  · simp [TRISC2]
  · simp [TRISC3]

/-- C8: for every prior state, after `CHRP4_config` the direction registers
hold TRISA = 0b00001111, TRISB = 0b11110000 and TRISC = 0b00001100. -/
theorem CHRP4_config_directions (s : Sim) :
    (CHRP4_config s).regs Reg.TRISA = 0b00001111 ∧
    (CHRP4_config s).regs Reg.TRISB = 0b11110000 ∧
    (CHRP4_config s).regs Reg.TRISC = 0b00001100 := by
  refine ⟨?_, ?_, ?_⟩ <;> simp [CHRP4_config, write, emit, store]

/-- C9: for every prior state, running `CHRP4_config` twice leaves the same
content in every register, and the same converter state, as running it
once. -/
theorem CHRP4_config_idempotent (s : Sim) :
    (CHRP4_config (CHRP4_config s)).regs = (CHRP4_config s).regs ∧
    (CHRP4_config (CHRP4_config s)).timer = (CHRP4_config s).timer ∧
    (CHRP4_config (CHRP4_config s)).delay = (CHRP4_config s).delay ∧
    (CHRP4_config (CHRP4_config s)).sample = (CHRP4_config s).sample := by
  refine ⟨?_, ?_, rfl, rfl⟩
  · funext r
    cases r <;> rfl
  · rfl

/-- C10: for every prior state, the write sequence of `CHRP4_config` and the
write sequence of `ADC_config` are the ones listed, and in each of them every
write to a direction register TRISx comes strictly after the write that clears
the latch LATx of the same port to 0. -/
theorem config_latch_cleared_before_direction (s : Sim) :
    (emitted s (CHRP4_config s) =
        [Event.write Reg.OPTION_REG 0b01010111,
         Event.write Reg.LATA 0, Event.write Reg.ANSELA 0,
         Event.write Reg.WPUA 0b00001000, Event.write Reg.TRISA 0b00001111,
         Event.write Reg.LATB 0, Event.write Reg.ANSELB 0,
         Event.write Reg.WPUB 0b11110000, Event.write Reg.TRISB 0b11110000,
         Event.write Reg.LATC 0, Event.write Reg.ANSELC 0,
         Event.write Reg.TRISC 0b00001100] ∧
      LatchClearedFirst (emitted s (CHRP4_config s))) ∧
    (emitted s (ADC_config s) =
        [Event.write Reg.LATC 0,
         Event.bit Reg.TRISC TRISC2 true, Event.bit Reg.TRISC TRISC3 true,
         Event.write Reg.ANSELC 0b00001100, Event.write Reg.ADCON0 0b00011100,
         Event.write Reg.ADCON1 0b01100000, Event.write Reg.ADCON2 0] ∧
      LatchClearedFirst (emitted s (ADC_config s))) := by
  refine ⟨⟨CHRP4_config_emitted s, ?_⟩, ⟨ADC_config_emitted s, ?_⟩⟩
  · rw [CHRP4_config_emitted]
    intro p
    cases p <;> decide
  · rw [ADC_config_emitted]
    intro p
    cases p <;> decide

end CHRP4
